import Mathlib

/-!
Verification development for the room permission and versioning subsystem of
the CompensationAPI repository (the express router in `src/unnamed/part_000`).

The JavaScript code is shallowly embedded: JS objects used as string-keyed
maps become association lists (`JsObj`), MongoDB documents of the `rooms`
collection become the `Room` structure, and each HTTP handler becomes a pure
function from the store state (`St`) and its request parameters to a response
(`Resp`) and the updated state.  JS truthiness on permission lookups
(`undefined` and `false` are both falsy) is modelled by `truthy`, and
`parseInt` by `jsParseInt`.
-/

namespace CompensationAPI

/-- Association-list model of a JS object used as a string-keyed map.
Property lookup returns the first matching entry; in the source these
objects always have unique keys. -/
abbrev JsObj (α : Type) := List (String × α)

/-- Property read `m[k]`: `none` models `undefined`.  Returns the first
matching entry. -/
def jsGet {α : Type} : JsObj α → String → Option α
  | [], _ => none
  | p :: t, k => if p.1 == k then some p.2 else jsGet t k

/-- Models `Object.keys(m).includes(k)`. -/
def hasKey {α : Type} (m : JsObj α) (k : String) : Bool :=
  (jsGet m k).isSome

/-- Property write `m[k] = v` (also MongoDB `$set` at a dotted path whose
final segment is `k`): an existing entry is updated in place, a new key is
appended, matching JS object insertion-order semantics. -/
def jsSet {α : Type} : JsObj α → String → α → JsObj α
  | [], k, v => [(k, v)]
  | p :: t, k, v => if p.1 == k then (k, v) :: t else p :: jsSet t k v

/-- Property removal (MongoDB `$unset` / JS `delete m[k]`). -/
def jsDelete {α : Type} : JsObj α → String → JsObj α
  | [], _ => []
  | p :: t, k => if p.1 == k then jsDelete t k else p :: jsDelete t k

/-- In-place update of an existing entry, used for MongoDB `$set` updates at
a dotted path `parent.k.field` where `k` is known to exist. -/
def jsModify {α : Type} : JsObj α → String → (α → α) → JsObj α
  | [], _, _ => []
  | p :: t, k, f => if p.1 == k then (p.1, f p.2) :: t else p :: jsModify t k f

/-- JS truthiness of a permission lookup: `undefined` and `false` are falsy. -/
def truthy : Option Bool → Bool
  | none => false
  | some b => b

/-- Does `pat` occur at the head of the character list? -/
def charsLead : List Char → List Char → Bool
  | [], _ => true
  | _ :: _, [] => false
  | a :: as, b :: bs => a == b && charsLead as bs

/-- Does `pat` occur anywhere in the character list? -/
def charsContain (pat : List Char) : List Char → Bool
  | [] => pat.isEmpty
  | c :: rest => charsLead pat (c :: rest) || charsContain pat rest

/-- Models `s.includes(pat)`. -/
def strIncludes (s pat : String) : Bool :=
  charsContain pat.data s.data

/-- Value of a list of decimal digits. -/
def decDigitsVal (ds : List Char) : Nat :=
  ds.foldl (fun acc c => acc * 10 + (c.toNat - '0'.toNat)) 0

/-- Value of a list of hexadecimal digits. -/
def hexDigitsVal (ds : List Char) : Nat :=
  ds.foldl (fun acc c =>
    acc * 16 +
      (if '0' ≤ c && c ≤ '9' then c.toNat - '0'.toNat
       else if 'a' ≤ c && c ≤ 'f' then c.toNat - 'a'.toNat + 10
       else c.toNat - 'A'.toNat + 10)) 0

def isDecDigit (c : Char) : Bool := '0' ≤ c && c ≤ '9'

def isHexDigit (c : Char) : Bool :=
  ('0' ≤ c && c ≤ '9') || ('a' ≤ c && c ≤ 'f') || ('A' ≤ c && c ≤ 'F')

/-- Model of JS `parseInt(s)` with the default radix rules: leading
whitespace is skipped, an optional sign is read, a `0x`/`0X` prefix switches
to hexadecimal, and the longest prefix of digits is converted; `none`
models `NaN`. -/
def jsParseInt (s : String) : Option Int :=
  let cs := s.data.dropWhile (fun c => c == ' ' || c == '\t' || c == '\n' || c == '\r')
  let (sign, cs2) : Int × List Char :=
    match cs with
    | '-' :: t => (-1, t)
    | '+' :: t => (1, t)
    | _ => (1, cs)
  match cs2 with
  | '0' :: 'x' :: t =>
    let ds := t.takeWhile isHexDigit
    if ds.isEmpty then none else some (sign * (hexDigitsVal ds : Int))
  | '0' :: 'X' :: t =>
    let ds := t.takeWhile isHexDigit
    if ds.isEmpty then none else some (sign * (hexDigitsVal ds : Int))
  | _ =>
    let ds := cs2.takeWhile isDecDigit
    if ds.isEmpty then none else some (sign * (decDigitsVal ds : Int))

/-- A JS value that is either a number or a string.  `publicVersionId` is
created as the number `0` but the set-public-version handler stores the raw
request string into it, so the field needs both shapes. -/
inductive JsVal where
  | num (n : Int)
  | str (s : String)
deriving DecidableEq, Repr

/-- Spawn metadata stored on a version (position and quaternion components;
the numeric values are irrelevant to every claim, so JS numbers are
modelled as integers). -/
structure Spawn where
  px : Int
  py : Int
  pz : Int
  rx : Int
  ry : Int
  rz : Int
  rw : Int
deriving DecidableEq, Repr

/-- A stored version document (element of `subrooms.X.versions`). -/
structure Version where
  baseSceneIndex : Int
  spawn : Spawn
  shortHandCommitMessage : String
  longHandCommitMessage : String
  author : String
  collaborators : List String
  associated_file : Bool
deriving DecidableEq, Repr

/-- A subroom document (value of `subrooms.X`). -/
structure Subroom where
  publicVersionId : JsVal
  maxPlayers : Int
  versions : List Version
deriving DecidableEq, Repr

/-- A room document of the `rooms` collection. -/
structure Room where
  _id : String
  name : String
  description : String
  creator_id : String
  tags : List String
  created_at : Int
  visits : Int
  homeSubroomId : String
  subrooms : JsObj Subroom
  rolePermissions : JsObj (JsObj Bool)
  userPermissions : JsObj String
  cover_image_id : String
  contentFlags : JsObj String
deriving DecidableEq, Repr

/-- An authenticated caller as produced by the token middleware. -/
structure User where
  id : String
  developer : Bool
deriving DecidableEq, Repr

/-- An entry of the `room_audit` collection as written by `roomAuditLog`.
The heterogeneous `previous_value`/`new_value` JSON payloads are not
examined by any claim and are elided. -/
structure AuditEvent where
  room_id : String
  user_id : String
  type : String
  note : Option String
deriving DecidableEq, Repr

/-- An HTTP JSON response: status plus the `code` and `message` body fields.
Endpoints whose body has only a `message` field leave `code` empty. -/
structure Resp where
  status : Nat
  code : String
  message : String
deriving DecidableEq, Repr

/-- The persistent state: the `rooms` collection, the `room_audit`
collection, and the blob store.  A blob is keyed by the
`(roomId, subroomId, versionIndex)` triple that determines its path
`rooms/R/subrooms/S/versions/N.bin`; its payload is the request body the
handler streamed to it. -/
structure St where
  db : List Room
  audit : List AuditEvent
  blobs : List ((String × String × Int) × String)
deriving DecidableEq, Repr

/-- Models `collection.findOne({_id: {$eq: id, $exists: true}})`: the first
matching document. -/
def findRoom : List Room → String → Option Room
  | [], _ => none
  | r :: t, id => if r._id == id then some r else findRoom t id

/-- Models `collection.updateOne({_id: ...}, u)`: the first matching
document is updated. -/
def updateRoomDoc (db : List Room) (id : String) (f : Room → Room) : List Room :=
  match db with
  | [] => []
  | r :: rest => if r._id == id then f r :: rest else r :: updateRoomDoc rest id f

/-- Models `collection.deleteOne({_id: ...})`: the first matching document
is removed. -/
def deleteRoomDoc (db : List Room) (id : String) : List Room :=
  match db with
  | [] => []
  | r :: rest => if r._id == id then rest else r :: deleteRoomDoc rest id

def blobGet : List ((String × String × Int) × String) → (String × String × Int) →
    Option String
  | [], _ => none
  | p :: t, k => if p.1 == k then some p.2 else blobGet t k

/-- Write (or overwrite) the blob at a path. -/
def blobWrite : List ((String × String × Int) × String) → (String × String × Int) →
    String → List ((String × String × Int) × String)
  | [], k, v => [(k, v)]
  | p :: t, k, v => if p.1 == k then (k, v) :: t else p :: blobWrite t k v

/-- The JS value held in `req.userRoomRole`.  Both middlewares execute
`req.userRoomRole = room.userPermissions`, so the field holds the whole
user-permissions object, not the resolved role string. -/
inductive JsRoleVal where
  | strVal (s : String)
  | objVal (m : JsObj String)
deriving DecidableEq, Repr

/-- JS loose equality of a `JsRoleVal` with a string.  A plain object is
converted by ToPrimitive to the string `[object Object]` and therefore never
compares equal to a role name such as `owner`. -/
def jsRoleValEqStr : JsRoleVal → String → Bool
  | JsRoleVal.strVal s, t => s == t
  | JsRoleVal.objVal _, _ => false

/-- The request fields populated by a room middleware before `next()`:
`req.room`, `req.userRoomRole` and `req.userRoomPermissions`.  The last is
`none` when `rolePermissions[role]` is `undefined` (possible for a developer,
whose permission check short-circuits). -/
structure ReqCtx where
  room : Room
  userRoomRole : JsRoleVal
  userRoomPermissions : Option (JsObj Bool)
deriving DecidableEq, Repr

/-- Outcome of a room middleware: pass control to the handler, answer
404 `room_not_found` with the given message, or throw.  A `thrown` outcome
models the TypeError raised by `rolePermissions[role][permission]` when the
assigned role has no entry in `rolePermissions`; the async middleware has no
try/catch, so the exception never produces a JSON response. -/
inductive MwResult where
  | next (ctx : ReqCtx)
  | notFound (message : String)
  | thrown
deriving DecidableEq, Repr

/-- Embedding of the `requiresRoomPermission(permission)` middleware
(src/unnamed/part_000:1920-1957).  The room has already been fetched by
`findOne` on `req.params.id`; `roomOpt` is its result. -/
def requiresRoomPermission (permission : String) (roomOpt : Option Room)
    (user : User) : MwResult :=
  match roomOpt with
  | none => MwResult.notFound "Room not found."
  | some room =>
    let role := (jsGet room.userPermissions user.id).getD "everyone"
    if user.developer then
      MwResult.next ⟨room, JsRoleVal.objVal room.userPermissions, jsGet room.rolePermissions role⟩
    else
      match jsGet room.rolePermissions role with
      | none => MwResult.thrown
      | some rperms =>
        if !(truthy (jsGet rperms permission)) && role != "owner" then
          MwResult.notFound "Access denied."
        else
          MwResult.next ⟨room, JsRoleVal.objVal room.userPermissions, some rperms⟩

/-- Embedding of the `canViewRoom` middleware
(src/unnamed/part_000:1882-1918).  Note that on permission denial it answers
with exactly the same 404 response it gives for a nonexistent room id. -/
def canViewRoom (roomOpt : Option Room) (user : User) : MwResult :=
  match roomOpt with
  | none => MwResult.notFound "You did not specify a room."
  | some room =>
    let role := (jsGet room.userPermissions user.id).getD "everyone"
    match jsGet room.rolePermissions role with
    | none => MwResult.thrown
    | some rperms =>
      if !(truthy (jsGet rperms "viewAndJoin") || user.developer) then
        MwResult.notFound "You did not specify a room."
      else
        MwResult.next ⟨room, JsRoleVal.objVal room.userPermissions, some rperms⟩

/-- The projection of a room served by `GET /room/:room_id/info`. -/
structure RoomProjection where
  _id : String
  name : String
  description : String
  creator_id : String
  tags : List String
  created_at : Int
  visits : Int
  homeSubroomId : String
  cover_image_id : String
  contentFlags : JsObj String
deriving DecidableEq, Repr

/-- Result of `GET /room/:room_id/info`: `notFound` is
404 `{message: "room_not_found"}`, `forbidden` is
403 `{message: "invalid_permissions"}`, `thrown` is the catch-all
`sendStatus(500)` reached when `rolePermissions[role]` is `undefined`. -/
inductive InfoResp where
  | notFound
  | forbidden
  | ok (proj : RoomProjection)
  | thrown
deriving DecidableEq, Repr

def roomProjection (room : Room) : RoomProjection :=
  ⟨room._id, room.name, room.description, room.creator_id, room.tags,
   room.created_at, room.visits, room.homeSubroomId, room.cover_image_id,
   room.contentFlags⟩

/-- Embedding of `GET /room/:room_id/info` (src/unnamed/part_000:80-114).
Authentication is optional; `userOpt` is `req.user`. -/
def roomInfo (roomOpt : Option Room) (userOpt : Option User) : InfoResp :=
  match roomOpt with
  | none => InfoResp.notFound
  | some room =>
    match userOpt with
    | some u =>
      let role := (jsGet room.userPermissions u.id).getD "everyone"
      match jsGet room.rolePermissions role with
      | none => InfoResp.thrown
      | some perms =>
        if !(truthy (jsGet perms "viewAndJoin")) && u.id != room.creator_id then
          InfoResp.forbidden
        else InfoResp.ok (roomProjection room)
    | none =>
      match jsGet room.rolePermissions "everyone" with
      | none => InfoResp.thrown
      | some perms =>
        if !(truthy (jsGet perms "viewAndJoin")) then InfoResp.forbidden
        else InfoResp.ok (roomProjection room)

/-- Response produced when an exception escapes an async middleware or a
handler whose catch block only does `res.sendStatus`/`res.status(...)`: no
structured code reaches the client.  Modelled as a bare 500. -/
def unhandledResp : Resp := ⟨500, "", ""⟩

/-- The room document inserted by `POST /new`
(src/unnamed/part_000:1060-1123).  `id` stands for the generated uuid and
`now` for `Date.now()`. -/
def newRoomDoc (id creator name : String) (now : Int) : Room :=
  { _id := id
    name := name
    description := "An empty room."
    creator_id := creator
    tags := ["community", "custom room"]
    created_at := now
    visits := 0
    homeSubroomId := "home"
    subrooms := [("home",
      { publicVersionId := JsVal.num 0
        maxPlayers := 20
        versions := [
          { baseSceneIndex := 15
            spawn := ⟨0, 0, 0, 0, 0, 0, 0⟩
            shortHandCommitMessage := "Initial Commit"
            longHandCommitMessage := "Initial Commit - Auto-Generated for your convenience."
            author := creator
            collaborators := []
            associated_file := false }] })]
    rolePermissions := [
      ("everyone",
        [("viewAndJoin", false), ("createVersions", false), ("setPublicVersion", false),
         ("viewSettings", false), ("viewPermissions", false), ("managePermissions", false),
         ("useCreationTool", false)]),
      ("owner",
        [("viewAndJoin", true), ("createVersions", true), ("setPublicVersion", true),
         ("viewSettings", true), ("viewPermissions", true), ("managePermissions", true),
         ("useCreationTool", true)])]
    userPermissions := [(creator, "owner")]
    cover_image_id := "2"
    contentFlags := [] }

/-- A JSON value appearing in the `permissions` request body of the role
update endpoint; the handler only accepts booleans. -/
inductive JsBody where
  | jsBool (b : Bool)
  | jsStr (s : String)
  | jsNum (n : Int)
  | jsNull
deriving DecidableEq, Repr

/-- The `for (const key in permissions)` loop of
`POST /room/:id/roles/:role_name/update` (src/unnamed/part_000:1288-1306).
`acc` is the mutated `room.rolePermissions[role_name]`.  The denial test
reads `req.userRoomPermissions[key]` (throwing if that field is
`undefined`), then `req.userRoomRole != "owner"` — which, the middleware
having stored the user-permissions object there, never equals the string —
and `req.user.developer`. -/
def roleUpdateLoop (ctx : ReqCtx) (user : User) (acc : JsObj Bool) :
    List (String × JsBody) → Except Resp (JsObj Bool)
  | [] => Except.ok acc
  | (key, el) :: rest =>
    match ctx.userRoomPermissions with
    | none => Except.error unhandledResp
    | some perms =>
      if !(truthy (jsGet perms key)) && !(jsRoleValEqStr ctx.userRoomRole "owner")
          && !user.developer then
        Except.error ⟨400, "access_denied", "You cannot manage permissions you don\x27t have."⟩
      else if strIncludes key "__proto__" then
        Except.error ⟨400, "invalid_input", "Possible prototype pollution attack detected."⟩
      else
        match el with
        | JsBody.jsBool b => roleUpdateLoop ctx user (jsSet acc key b) rest
        | _ => Except.error ⟨400, "invalid_input",
            "All values must be booleans. (permission `" ++ key ++ "`)"⟩

/-- Embedding of `POST /room/:id/roles/:role_name/update`
(src/unnamed/part_000:1247-1348), middleware included. -/
def roleUpdate (st : St) (rid role_name : String)
    (permissions : List (String × JsBody)) (user : User) : Resp × St :=
  match requiresRoomPermission "managePermissions" (findRoom st.db rid) user with
  | MwResult.notFound m => (⟨404, "room_not_found", m⟩, st)
  | MwResult.thrown => (unhandledResp, st)
  | MwResult.next ctx =>
    if strIncludes role_name "__proto__" then
      (⟨400, "invalid_input", "Possible prototype pollution attack detected."⟩, st)
    else if role_name == "owner" then
      (⟨400, "access_denied", "You cannot edit the permissions of the \x27owner\x27 role."⟩, st)
    else
      match findRoom st.db rid with
      | none => (⟨500, "internal_error",
          "An internal error occurred and we could not serve your request."⟩, st)
      | some room =>
        match jsGet room.rolePermissions role_name with
        | none => (⟨404, "not_found", "No role with that name exists."⟩, st)
        | some rperms =>
          match roleUpdateLoop ctx user rperms permissions with
          | Except.error r => (r, st)
          | Except.ok newPerms =>
            let db2 := updateRoomDoc st.db rid (fun r =>
              { r with rolePermissions := jsSet room.rolePermissions role_name newPerms })
            (⟨200, "success", "The operation was successful."⟩,
             ⟨db2, st.audit ++ [⟨rid, user.id, "role_permissions_updated", none⟩], st.blobs⟩)

/-- Embedding of `POST /room/:id/roles/:role_name/delete`
(src/unnamed/part_000:1350-1425), middleware included.  The user-reassignment
loop is rendered faithfully: the source iterates the keys of
`room.userPermissions` and executes `const role = keys[i];
if (role != role_name) continue;`, i.e. it compares each *user id* to the
role name, so only a user whose id literally equals the deleted role name is
reassigned to `everyone`. -/
def roleDelete (st : St) (rid role_name : String) (user : User) : Resp × St :=
  match requiresRoomPermission "managePermissions" (findRoom st.db rid) user with
  | MwResult.notFound m => (⟨404, "room_not_found", m⟩, st)
  | MwResult.thrown => (unhandledResp, st)
  | MwResult.next _ctx =>
    if role_name == "owner" || role_name == "everyone" then
      (⟨400, "invalid_input",
        "You cannot delete a reserved role. (i.e \x27owner\x27 or \x27everyone\x27)"⟩, st)
    else
      match findRoom st.db rid with
      | none => (⟨500, "internal_error",
          "An internal server error occurred and we couldn\x27t serve your request."⟩, st)
      | some room =>
        let users := (room.userPermissions.map Prod.fst).filter (fun k => k == role_name)
        let db2 := updateRoomDoc st.db rid (fun r =>
          { r with rolePermissions := jsDelete r.rolePermissions role_name,
                   userPermissions := users.foldl (fun up k => jsSet up k "everyone")
                     r.userPermissions })
        (⟨200, "success", "The operation was successful."⟩,
         ⟨db2, st.audit ++ [⟨rid, user.id, "role_deleted", none⟩], st.blobs⟩)

/-- Embedding of `PUT /room/:id/roles/new` (src/unnamed/part_000:1147-1215),
middleware included.  `nameOpt` is `none` when the body `name` field is not
a string. -/
def roleCreate (st : St) (rid : String) (nameOpt : Option String) (user : User) :
    Resp × St :=
  match requiresRoomPermission "managePermissions" (findRoom st.db rid) user with
  | MwResult.notFound m => (⟨404, "room_not_found", m⟩, st)
  | MwResult.thrown => (unhandledResp, st)
  | MwResult.next _ctx =>
    match nameOpt with
    | none => (⟨400, "invalid_input", "Body field \x27name\x27 must be a string."⟩, st)
    | some name =>
      if name == "owner" || name == "everyone" then
        (⟨400, "invalid_input",
          "Cannot create a role with a reserved name like \x27owner\x27 or \x27everyone\x27."⟩, st)
      else
        match findRoom st.db rid with
        | none => (⟨500, "internal_error",
            "An internal error occurred and we could not serve your request."⟩, st)
        | some room =>
          if hasKey room.rolePermissions name then
            (⟨400, "invalid_input",
              "Cannot create a role with the same name as one that already exists."⟩, st)
          else
            let db2 := updateRoomDoc st.db rid (fun r =>
              { r with rolePermissions := jsSet r.rolePermissions name [] })
            (⟨200, "success", "Successfully created role."⟩,
             ⟨db2, st.audit ++ [⟨rid, user.id, "role_created", none⟩], st.blobs⟩)

/-- The spawn position supplied in a version-create request body; each
coordinate is `some` exactly when the field is present with a numeric
value. -/
structure InVec3 where
  x : Option Int
  y : Option Int
  z : Option Int
deriving DecidableEq, Repr

/-- The spawn rotation supplied in a version-create request body. -/
structure InVec4 where
  x : Option Int
  y : Option Int
  z : Option Int
  w : Option Int
deriving DecidableEq, Repr

/-- The `spawn` object of a version-create request body. -/
structure InSpawn where
  position : Option InVec3
  rotation : Option InVec4
deriving DecidableEq, Repr

/-- The request body of `PUT /room/:id/subrooms/:subroom_id/versions/new`.
`none` in an `Option` field models an absent field or one of the wrong JS
type; `collaborators` is `some` exactly when the field passes
`Array.isArray`.  The `author` field may be supplied by the client but is
never read by the handler. -/
structure InputMeta where
  baseSceneIndex : Option Int
  spawn : Option InSpawn
  shortHandCommitMessage : Option String
  longHandCommitMessage : Option String
  author : Option String
  collaborators : Option (List String)
deriving DecidableEq, Repr

/-- The validation of `input_metadata.spawn`
(src/unnamed/part_000:255-273): the spawn object, its position and rotation
objects, and all seven numeric components must be present. -/
def spawnComplete (i : InputMeta) : Bool :=
  match i.spawn with
  | some ⟨some p, some r⟩ =>
    p.x.isSome && p.y.isSome && p.z.isSome &&
    r.x.isSome && r.y.isSome && r.z.isSome && r.w.isSome
  | _ => false

/-- The `decoupled_metadata` document the handler appends
(src/unnamed/part_000:229-287): `baseSceneIndex` and the commit messages are
copied from the request when well-typed, `author` is forced to the
authenticated caller, and the defaults are kept for `spawn` (the validated
input spawn is never copied into the stored document) and `collaborators`
(checked with `Array.isArray` but never copied). -/
def decoupledMeta (i : InputMeta) (user : User) : Version :=
  { baseSceneIndex := i.baseSceneIndex.getD 9
    spawn := ⟨0, 0, 0, 0, 0, 0, 1⟩
    shortHandCommitMessage := i.shortHandCommitMessage.getD "No Message"
    longHandCommitMessage := i.longHandCommitMessage.getD "No Description"
    author := user.id
    collaborators := []
    associated_file := false }

/-- Embedding of `PUT /room/:id/subrooms/:subroom_id/versions/new`
(src/unnamed/part_000:223-318), after the `requiresRoomPermission
("createVersions")` gate.  The third component of the result is the `id`
field of the 200 response body.  `auditOk` says whether the awaited
`roomAuditLog` insert succeeds; when it throws, the catch block answers 500
even though the `$push` has already been applied. -/
def versionsNew (st : St) (rid sid : String) (input : InputMeta) (user : User)
    (auditOk : Bool) : Resp × St × Option String :=
  if spawnComplete input = false then
    (⟨400, "invalid_metadata",
      "The `spawn` parameter of your version metadata is not specified or is invalid."⟩,
     st, none)
  else if input.collaborators.isNone then
    (⟨400, "invalid_metadata",
      "The `collaborators` parameter of your version metadata is not specified or is invalid."⟩,
     st, none)
  else
    match findRoom st.db rid with
    | none => (⟨500, "internal_error",
        "An internal server error occured, and the operation failed. Please contact Support if the issue persists."⟩,
       st, none)
    | some room =>
      match jsGet room.subrooms sid with
      | none =>
        (⟨404, "nonexistent_subroom", "No subroom found with specified ID."⟩, st, none)
      | some sub =>
        let db2 := updateRoomDoc st.db rid (fun r =>
          { r with subrooms := jsModify r.subrooms sid (fun s =>
              { s with versions := s.versions ++ [decoupledMeta input user] }) })
        if auditOk then
          (⟨200, "success", "Operation succeeded."⟩,
           ⟨db2, st.audit ++ [⟨rid, user.id, "changeset_created", none⟩], st.blobs⟩,
           some (toString sub.versions.length))
        else
          (⟨500, "internal_error",
            "An internal server error occured, and the operation failed. Please contact Support if the issue persists."⟩,
           ⟨db2, st.audit, st.blobs⟩, none)

/-- Models the MongoDB update
`$set subrooms.X.versions.N.associated_file = true`. -/
def setAssociatedFlag : List Version → Nat → List Version
  | [], _ => []
  | v :: t, 0 => { v with associated_file := true } :: t
  | v :: t, Nat.succ n => v :: setAssociatedFlag t n

/-- Embedding of
`POST /room/:id/subrooms/:subroom_id/versions/:version_id/associate-data`
(src/unnamed/part_000:319-389), after the `requiresRoomPermission
("createVersions")` gate.  A parsed negative index passes the
`versions.length - 1 < version_id` guard but `versions[version_id]` is then
`undefined` and reading `.associated_file` throws, which the catch block
turns into the 500 response.  The handler writes no audit record. -/
def associateData (st : St) (rid sid vidStr body : String) (_user : User) : Resp × St :=
  match jsParseInt vidStr with
  | none => (⟨400, "invalid_parameter",
      "Parameter `version` is invalid, must be parsable as Integer."⟩, st)
  | some vid =>
    match findRoom st.db rid with
    | none => (⟨500, "internal_error",
        "An internal server error occured and the operation failed. If the issue persists, contact Support."⟩, st)
    | some room =>
      match jsGet room.subrooms sid with
      | none => (⟨403, "nonexistent_subroom", "That subroom does not exist."⟩, st)
      | some sub =>
        if ((sub.versions.length : Int) - 1) < vid then
          (⟨404, "version_not_found", "No version of this room exists with that ID."⟩, st)
        else
          match (if 0 ≤ vid then sub.versions.get? vid.toNat else none) with
          | none => (⟨500, "internal_error",
              "An internal server error occured and the operation failed. If the issue persists, contact Support."⟩, st)
          | some v =>
            if v.associated_file then
              (⟨400, "file_already_associated",
                "There is already a file associated with this version. Try making a new one."⟩, st)
            else
              let blobs2 := blobWrite st.blobs (rid, sid, vid) body
              let db2 := updateRoomDoc st.db rid (fun r =>
                { r with subrooms := jsModify r.subrooms sid (fun s =>
                    { s with versions := setAssociatedFlag s.versions vid.toNat }) })
              (⟨200, "success", "Operation successful."⟩, ⟨db2, st.audit, blobs2⟩)

/-- The guard `room.subrooms[sid].versions.length <= parseInt(version_id)`
of the set-public-version handler, with JS comparison semantics: any
comparison against `NaN` is false. -/
def jsLenLeParsed (len : Nat) : Option Int → Bool
  | none => false
  | some n => (len : Int) ≤ n

/-- Embedding of `POST /room/:id/subrooms/:subroom_id/versions/public`
(src/unnamed/part_000:390-444), after the `requiresRoomPermission
("setPublicVersion")` gate.  `bodyId` is `none` when the body `id` field is
not a string.  On success the handler `$set`s `publicVersionId` to the raw
request string. -/
def setPublicVersion (st : St) (rid sid : String) (bodyId : Option String)
    (user : User) : Resp × St :=
  match bodyId with
  | none => (⟨400, "invalid_input",
      "Parameter `new_id` is unset. Please specify a new publicVersionId."⟩, st)
  | some vidStr =>
    match findRoom st.db rid with
    | none => (⟨404, "room_not_found", "That room does not exist."⟩, st)
    | some room =>
      match jsGet room.subrooms sid with
      | none => (⟨404, "nonexistent_subroom", "That subroom does not exist."⟩, st)
      | some sub =>
        if jsLenLeParsed sub.versions.length (jsParseInt vidStr) then
          (⟨400, "nonexistent_version",
            "There is no version of this room associated with that ID."⟩, st)
        else
          let db2 := updateRoomDoc st.db rid (fun r =>
            { r with subrooms := jsModify r.subrooms sid (fun s =>
                { s with publicVersionId := JsVal.str vidStr }) })
          (⟨200, "success", "Operation successful"⟩,
           ⟨db2, st.audit ++ [⟨rid, user.id, "public_version_updated", none⟩], st.blobs⟩)

/-- Embedding of `POST /room/:id/moderation-terminate`
(src/unnamed/part_000:653-774).  The caller has already passed
`authenticateDeveloperToken`.  `permanentQ` is the raw `permanent` query
value; only the exact string `"true"` selects the permanent branch.
`roomAuditLog` is invoked here WITHOUT `await` (fire and forget), so
`auditOk = false` suppresses the audit record but cannot influence the
response.  The creator notification push and websocket alert touch only the
`accounts` collection and live sockets and are elided. -/
def moderationTerminate (st : St) (rid : String) (note : Option String)
    (permanentQ : Option String) (user : User) (auditOk : Bool) : Resp × St :=
  match findRoom st.db rid with
  | none => (⟨404, "room_not_found",
      "Could not locate that room. Has another developer already terminated it?"⟩, st)
  | some _room =>
    if permanentQ == some "true" then
      let db2 := deleteRoomDoc st.db rid
      let audit2 :=
        if auditOk then
          st.audit ++ [⟨rid, user.id, "room_terminated_for_illegal_content", note⟩]
        else st.audit
      (⟨200, "success", "Room wiped entirely from database."⟩, ⟨db2, audit2, st.blobs⟩)
    else
      let db2 := updateRoomDoc st.db rid (fun r =>
        { r with
          userPermissions := []
          rolePermissions := [("everyone", [])]
          description := "This room has been terminated by the Compensation server moderation team for repeated violations of our community standards." })
      let audit2 :=
        if auditOk then st.audit ++ [⟨rid, user.id, "room_terminated", note⟩]
        else st.audit
      (⟨200, "success", "The operation was successful."⟩, ⟨db2, audit2, st.blobs⟩)

/-- The fresh subroom document created by
`POST /room/:id/subrooms/:name/create` (src/unnamed/part_000:1654-1680). -/
def defaultSubroom (user : User) : Subroom :=
  { publicVersionId := JsVal.num 0
    maxPlayers := 20
    versions := [
      { baseSceneIndex := 15
        spawn := ⟨0, 0, 0, 0, 0, 0, 0⟩
        shortHandCommitMessage := "Initial Commit"
        longHandCommitMessage := "Initial Commit - Auto-Generated for your convenience."
        author := user.id
        collaborators := []
        associated_file := false }] }

/-- Room-level core of `POST /room/:id/subrooms/:name/create`
(src/unnamed/part_000:1633-1712), acting on the middleware-fetched
`req.room`; the database write is `updateRoomDoc` with this transition and
the audit record is `subroom_created`. -/
def subroomCreateR (room : Room) (name : String) (user : User) : Resp × Room :=
  if hasKey room.subrooms name then
    (⟨400, "invalid_input", "A subroom with that name already exists."⟩, room)
  else
    (⟨200, "success", "The operation was successful."⟩,
     { room with subrooms := jsSet room.subrooms name (defaultSubroom user) })

/-- Room-level core of `POST /room/:id/subrooms/:name/delete`
(src/unnamed/part_000:1714-1763).  The existence check precedes the
home-subroom check, and the 404 message really does say "role". -/
def subroomDeleteR (room : Room) (name : String) : Resp × Room :=
  if hasKey room.subrooms name = false then
    (⟨404, "not_found", "No role with that name exists on this room."⟩, room)
  else if name == room.homeSubroomId then
    (⟨400, "invalid_input", "You cannot delete the home subroom of a room."⟩, room)
  else
    (⟨200, "success", "The operation was successful."⟩,
     { room with subrooms := jsDelete room.subrooms name })

/-- Room-level core of
`POST /room/:id/subrooms/:name/set-max-players/:count`
(src/unnamed/part_000:1765-1815). -/
def setMaxPlayersR (room : Room) (name count : String) : Resp × Room :=
  if hasKey room.subrooms name = false then
    (⟨404, "not_found", "No subroom with that name exists on this room."⟩, room)
  else
    match jsParseInt count with
    | none => (⟨400, "invalid_input", "Could not parse URL parameter `count` as integer."⟩, room)
    | some n =>
      (⟨200, "success", "The operation was successful."⟩,
       { room with subrooms := jsModify room.subrooms name (fun s => { s with maxPlayers := n }) })

/-- Room-level core of `POST /room/:id/set-home-subroom/:name`
(src/unnamed/part_000:1817-1860). -/
def setHomeSubroomR (room : Room) (name : String) : Resp × Room :=
  if hasKey room.subrooms name = false then
    (⟨404, "not_found", "No subroom with that name exists on this room."⟩, room)
  else
    (⟨200, "success", "The operation was successful."⟩,
     { room with homeSubroomId := name })

/-- One of the four subroom-touching mutations; these are the only
operations of the router that write to `subrooms` or `homeSubroomId`. -/
inductive SubOp where
  | create (name : String) (user : User)
  | delete (name : String)
  | setMaxPlayers (name count : String)
  | setHome (name : String)
deriving DecidableEq, Repr

/-- Apply a subroom mutation, keeping the (possibly unchanged) room. -/
def applySubOp (room : Room) : SubOp → Room
  | SubOp.create name user => (subroomCreateR room name user).2
  | SubOp.delete name => (subroomDeleteR room name).2
  | SubOp.setMaxPlayers name count => (setMaxPlayersR room name count).2
  | SubOp.setHome name => (setHomeSubroomR room name).2

/-- Run a sequence of subroom mutations. -/
def runSubOps (room : Room) (ops : List SubOp) : Room :=
  ops.foldl applySubOp room

/-- The invariant of claim C3: the home subroom id is a key of the
subrooms map. -/
def homeInvariant (room : Room) : Prop :=
  hasKey room.subrooms room.homeSubroomId = true

/-- Test fixture: a freshly created room. -/
def sampleRoom : Room := newRoomDoc "room-1" "creator1" "Test" 0

/-- Test fixture: `sampleRoom` after a `builder` role has been created
(`PUT /room/:id/roles/new` initializes the role with an empty permission
set). -/
def builderRoom : Room :=
  { sampleRoom with rolePermissions := jsSet sampleRoom.rolePermissions "builder" [] }

/-- Test fixture: `builderRoom` with user `U1` assigned the `builder` role,
i.e. `userPermissions = {creator1: "owner", U1: "builder"}`. -/
def danglingRoom : Room :=
  { builderRoom with userPermissions := jsSet builderRoom.userPermissions "U1" "builder" }

/-- Test fixture: the `home` subroom of `sampleRoom`. -/
def sampleHomeSub : Subroom :=
  { publicVersionId := JsVal.num 0
    maxPlayers := 20
    versions := [
      { baseSceneIndex := 15
        spawn := ⟨0, 0, 0, 0, 0, 0, 0⟩
        shortHandCommitMessage := "Initial Commit"
        longHandCommitMessage := "Initial Commit - Auto-Generated for your convenience."
        author := "creator1"
        collaborators := []
        associated_file := false }] }

/-- Test fixture: a version-create request body that passes validation and
carries a spoofed `author` field. -/
def goodInput : InputMeta :=
  { baseSceneIndex := some 15
    spawn := some ⟨some ⟨some 0, some 0, some 0⟩, some ⟨some 0, some 0, some 0, some 1⟩⟩
    shortHandCommitMessage := some "short"
    longHandCommitMessage := some "long"
    author := some "spoofed-author"
    collaborators := some [] }

/-- The state after a successful associate-data call: the blob is stored at
the `(room, subroom, version)` path and the version's `associated_file` flag
is `$set` to true. -/
def associateAfter (st : St) (rid sid : String) (n : Int) (body : String) : St :=
  ⟨updateRoomDoc st.db rid (fun r =>
     { r with subrooms := jsModify r.subrooms sid (fun s =>
         { s with versions := setAssociatedFlag s.versions n.toNat }) }),
   st.audit, blobWrite st.blobs (rid, sid, n) body⟩

/-! ### Lemmas about the JS-object and store primitives -/

theorem jsGet_cons {α : Type} (p : String × α) (t : JsObj α) (k : String) :
    jsGet (p :: t) k = if p.1 == k then some p.2 else jsGet t k := rfl

theorem jsGet_jsSet_self {α : Type} (m : JsObj α) (k : String) (v : α) :
    jsGet (jsSet m k v) k = some v := by
  induction m with
  | nil => simp [jsSet, jsGet]
  | cons p t ih =>
    by_cases hp : p.1 == k
    · simp [jsSet, jsGet, hp]
    · simp [jsSet, jsGet, hp, ih]

theorem jsGet_jsSet_ne {α : Type} (m : JsObj α) {k k' : String} (v : α)
    (hne : k' ≠ k) : jsGet (jsSet m k v) k' = jsGet m k' := by
  have hkk : (k == k') = false := by
    simp only [beq_eq_false_iff_ne, ne_eq]
    exact fun hc => hne hc.symm
  induction m with
  | nil => simp [jsSet, jsGet, hkk]
  | cons p t ih =>
    by_cases hp : p.1 == k
    · have hp1 : p.1 = k := by simpa using hp
      simp [jsSet, jsGet, hp, hp1, hkk]
    · simp [jsSet, jsGet, hp, ih]

theorem hasKey_jsSet_of_hasKey {α : Type} (m : JsObj α) (k k' : String) (v : α)
    (h : hasKey m k' = true) : hasKey (jsSet m k v) k' = true := by
  by_cases hk : k' = k
  · subst hk
    simp [hasKey, jsGet_jsSet_self]
  · simp only [hasKey, jsGet_jsSet_ne m v hk]
    exact h

theorem jsGet_jsDelete_ne {α : Type} (m : JsObj α) {k k' : String}
    (hne : k' ≠ k) : jsGet (jsDelete m k) k' = jsGet m k' := by
  induction m with
  | nil => simp [jsDelete, jsGet]
  | cons p t ih =>
    by_cases hp : p.1 == k
    · have hp1 : p.1 = k := by simpa using hp
      have hk' : (p.1 == k') = false := by
        simp only [beq_eq_false_iff_ne, ne_eq, hp1]
        exact fun hc => hne hc.symm
      simp [jsDelete, jsGet, hp, hk', ih]
    · simp [jsDelete, jsGet, hp, ih]

theorem jsGet_jsModify_self {α : Type} (m : JsObj α) (k : String) (f : α → α) :
    jsGet (jsModify m k f) k = (jsGet m k).map f := by
  induction m with
  | nil => simp [jsModify, jsGet]
  | cons p t ih =>
    by_cases hp : p.1 == k
    · simp [jsModify, jsGet, hp]
    · simp [jsModify, jsGet, hp, ih]

theorem jsGet_jsModify_ne {α : Type} (m : JsObj α) {k k' : String} (f : α → α)
    (hne : k' ≠ k) : jsGet (jsModify m k f) k' = jsGet m k' := by
  induction m with
  | nil => simp [jsModify, jsGet]
  | cons p t ih =>
    by_cases hp : p.1 == k
    · have hp1 : p.1 = k := by simpa using hp
      have hk' : (p.1 == k') = false := by
        simp only [beq_eq_false_iff_ne, ne_eq, hp1]
        exact fun hc => hne hc.symm
      simp [jsModify, jsGet, hp, hk', ih]
    · simp [jsModify, jsGet, hp, ih]

theorem hasKey_jsModify {α : Type} (m : JsObj α) (k k' : String) (f : α → α) :
    hasKey (jsModify m k f) k' = hasKey m k' := by
  by_cases hk : k' = k
  · subst hk
    simp [hasKey, jsGet_jsModify_self]
  · simp [hasKey, jsGet_jsModify_ne m f hk]

theorem findRoom_updateRoomDoc_self (db : List Room) (id : String) (f : Room → Room)
    (hf : ∀ r, (f r)._id = r._id) :
    findRoom (updateRoomDoc db id f) id = (findRoom db id).map f := by
  induction db with
  | nil => simp [findRoom, updateRoomDoc]
  | cons r t ih =>
    by_cases h : r._id == id
    · simp [updateRoomDoc, findRoom, h, hf r]
    · simp [updateRoomDoc, findRoom, h, ih]

theorem findRoom_eq_none_of_not_mem (db : List Room) (id : String)
    (h : id ∉ db.map Room._id) : findRoom db id = none := by
  induction db with
  | nil => rfl
  | cons r t ih =>
    simp only [List.map_cons, List.mem_cons, not_or] at h
    have hr : (r._id == id) = false := by
      simp only [beq_eq_false_iff_ne, ne_eq]
      exact fun hc => h.1 hc.symm
    simp [findRoom, hr, ih h.2]

theorem findRoom_deleteRoomDoc (db : List Room) (id : String)
    (h : (db.map Room._id).Nodup) :
    findRoom (deleteRoomDoc db id) id = none := by
  induction db with
  | nil => rfl
  | cons r t ih =>
    rw [List.map_cons, List.nodup_cons] at h
    by_cases hr : r._id == id
    · have hid : r._id = id := by simpa using hr
      have hnm : id ∉ t.map Room._id := hid ▸ h.1
      simp [deleteRoomDoc, hr, findRoom_eq_none_of_not_mem t id hnm]
    · simp [deleteRoomDoc, findRoom, hr, ih h.2]

theorem setAssociatedFlag_length (vs : List Version) (n : Nat) :
    (setAssociatedFlag vs n).length = vs.length := by
  induction vs generalizing n with
  | nil => simp [setAssociatedFlag]
  | cons v t ih =>
    cases n with
    | zero => simp [setAssociatedFlag]
    | succ m => simp [setAssociatedFlag, ih]

theorem setAssociatedFlag_get? (vs : List Version) (n : Nat) (v : Version)
    (h : vs.get? n = some v) :
    (setAssociatedFlag vs n).get? n = some { v with associated_file := true } := by
  induction vs generalizing n with
  | nil => simp at h
  | cons w t ih =>
    cases n with
    | zero =>
      simp only [List.get?] at h
      cases h
      simp [setAssociatedFlag]
    | succ m =>
      simp only [List.get?] at h
      simpa [setAssociatedFlag] using ih m h

theorem blobGet_blobWrite_self (bs : List ((String × String × Int) × String))
    (k : String × String × Int) (v : String) :
    blobGet (blobWrite bs k v) k = some v := by
  induction bs with
  | nil => simp [blobWrite, blobGet]
  | cons p t ih =>
    by_cases hp : p.1 == k
    · simp [blobWrite, blobGet, hp]
    · simp [blobWrite, blobGet, hp, ih]

/-! ### Claim theorems -/

/-- C1: the claim states that a role-permission update restricted to
permissions the actor already holds succeeds, and that the owner is exempt
from the delegation cap.  The code contradicts this: `requiresRoomPermission`
stores the whole `userPermissions` object into `req.userRoomRole`, so the
handler test `req.userRoomRole != "owner"` always passes and the room
creator (resolved role `owner`, holder of every permission per the spec's
resolver) is denied any permission key that is not literally present in
`rolePermissions.owner` — here `manageSubrooms`.  This theorem evaluates the
full pipeline at that failing input. -/
theorem claim1_owner_denied :
    roleUpdate ⟨[builderRoom], [], []⟩ "room-1" "builder"
      [("manageSubrooms", JsBody.jsBool true)] ⟨"creator1", false⟩ =
    (⟨400, "access_denied", "You cannot manage permissions you don\x27t have."⟩,
     ⟨[builderRoom], [], []⟩) := by
  decide

/-- C2: the claim states that deleting role `builder` from a room with
`userPermissions = {U1: "builder"}` leaves no user mapped to `builder`.
The code's reassignment loop compares each *user id* to the role name
(`const role = keys[i]`), so `U1`'s entry survives as a dangling reference
while the role itself is removed; the operation still reports success and
emits exactly one `role_deleted` audit event. -/
theorem claim2_role_delete_dangling :
    (roleDelete ⟨[danglingRoom], [], []⟩ "room-1" "builder" ⟨"dev1", true⟩).1.status = 200 ∧
    ((roleDelete ⟨[danglingRoom], [], []⟩ "room-1" "builder" ⟨"dev1", true⟩).2.db.map
      (fun r => (jsGet r.userPermissions "U1", hasKey r.rolePermissions "builder"))) =
      [(some "builder", false)] ∧
    ((roleDelete ⟨[danglingRoom], [], []⟩ "room-1" "builder" ⟨"dev1", true⟩).2.audit.filter
      (fun e => e.type == "role_deleted")).length = 1 := by
  decide

theorem applySubOp_preserves (room : Room) (op : SubOp) (h : homeInvariant room) :
    homeInvariant (applySubOp room op) := by
  cases op with
  | create name user =>
    unfold applySubOp subroomCreateR
    by_cases hk : hasKey room.subrooms name
    · simpa [hk] using h
    · simp only [hk, if_false, Bool.false_eq_true]
      unfold homeInvariant at *
      simpa using hasKey_jsSet_of_hasKey room.subrooms name room.homeSubroomId
        (defaultSubroom user) h
  | delete name =>
    unfold applySubOp subroomDeleteR
    by_cases hk : hasKey room.subrooms name = false
    · simpa [hk] using h
    · by_cases hh : name == room.homeSubroomId
      · simpa [hk, hh] using h
      · have hne : room.homeSubroomId ≠ name := by
          intro hc
          exact hh (by simp [hc])
        simp only [hk, if_false, hh, Bool.false_eq_true]
        unfold homeInvariant at *
        simpa [hasKey, jsGet_jsDelete_ne room.subrooms hne] using h
  | setMaxPlayers name count =>
    unfold applySubOp setMaxPlayersR
    by_cases hk : hasKey room.subrooms name = false
    · simpa [hk] using h
    · cases hp : jsParseInt count with
      | none => simpa [hk, hp] using h
      | some n =>
        simp only [hk, hp, if_false, Bool.false_eq_true]
        unfold homeInvariant at *
        simpa [hasKey_jsModify] using h
  | setHome name =>
    unfold applySubOp setHomeSubroomR
    by_cases hk : hasKey room.subrooms name = false
    · simpa [hk] using h
    · simp only [hk, if_false, Bool.false_eq_true]
      unfold homeInvariant
      simpa using Bool.not_eq_false _ |>.mp hk

theorem runSubOps_preserves (ops : List SubOp) (room : Room) (h : homeInvariant room) :
    homeInvariant (runSubOps room ops) := by
  induction ops generalizing room with
  | nil => simpa [runSubOps] using h
  | cons op rest ih =>
    simpa [runSubOps, List.foldl_cons] using ih _ (applySubOp_preserves room op h)

/-- C3: if the home subroom id is a key of `subrooms`, it remains one after
any sequence of the subroom-touching mutations (the only operations of the
router that write `subrooms` or `homeSubroomId`); in particular a delete of
the current home subroom answers 400 `invalid_input` and leaves the room
unchanged, and setting the home subroom to a nonexistent name answers 404
and leaves the room unchanged. -/
theorem claim3_home_subroom_invariant (room : Room) (ops : List SubOp)
    (h : homeInvariant room) :
    homeInvariant (runSubOps room ops)
    ∧ subroomDeleteR room room.homeSubroomId =
        (⟨400, "invalid_input", "You cannot delete the home subroom of a room."⟩, room)
    ∧ (∀ n, hasKey room.subrooms n = false →
        setHomeSubroomR room n =
          (⟨404, "not_found", "No subroom with that name exists on this room."⟩, room)) := by
  refine ⟨runSubOps_preserves ops room h, ?_, ?_⟩
  · unfold subroomDeleteR
    unfold homeInvariant at h
    simp [h]
  · intro n hn
    unfold setHomeSubroomR
    simp [hn]

/-- Witness for C3 at a concrete room and operation sequence. -/
theorem claim3_witness :
    homeInvariant sampleRoom
    ∧ (homeInvariant (runSubOps sampleRoom
        [SubOp.create "lounge" ⟨"creator1", false⟩, SubOp.setHome "lounge",
         SubOp.delete "home", SubOp.setMaxPlayers "lounge" "12"])
      ∧ subroomDeleteR sampleRoom sampleRoom.homeSubroomId =
          (⟨400, "invalid_input", "You cannot delete the home subroom of a room."⟩, sampleRoom)
      ∧ (∀ n, hasKey sampleRoom.subrooms n = false →
          setHomeSubroomR sampleRoom n =
            (⟨404, "not_found", "No subroom with that name exists on this room."⟩, sampleRoom))) :=
  ⟨by unfold homeInvariant; decide,
   claim3_home_subroom_invariant sampleRoom _ (by unfold homeInvariant; decide)⟩

/-- C4: a version-create call that passes validation appends exactly one
version, returns as `id` the length of the subroom's versions list measured
on the document fetched before the `$push`, and stores the authenticated
caller as `author` no matter what `author` value the request body carried
(the `input` quantifier ranges over bodies with arbitrary `author`
fields). -/
theorem claim4_version_create (st : St) (rid sid : String) (input : InputMeta)
    (user : User) (room : Room) (sub : Subroom)
    (hroom : findRoom st.db rid = some room)
    (hsub : jsGet room.subrooms sid = some sub)
    (hspawn : spawnComplete input = true)
    (hcoll : input.collaborators.isSome = true) :
    versionsNew st rid sid input user true =
      (⟨200, "success", "Operation succeeded."⟩,
       ⟨updateRoomDoc st.db rid (fun r =>
          { r with subrooms := jsModify r.subrooms sid (fun s =>
              { s with versions := s.versions ++ [decoupledMeta input user] }) }),
        st.audit ++ [⟨rid, user.id, "changeset_created", none⟩], st.blobs⟩,
       some (toString sub.versions.length))
    ∧ (decoupledMeta input user).author = user.id := by
  have hcoll' : input.collaborators.isNone = false := by
    cases hc : input.collaborators with
    | none => rw [hc] at hcoll; simp at hcoll
    | some l => rfl
  constructor
  · simp [versionsNew, hspawn, hcoll', hroom, hsub]
  · rfl

/-- Witness for C4: creating a version on a fresh room (one existing
version) returns id `"1"` and stores the caller `caller9` as author even
though the body claimed `spoofed-author`. -/
theorem claim4_witness :
    findRoom [sampleRoom] "room-1" = some sampleRoom
    ∧ jsGet sampleRoom.subrooms "home" = some sampleHomeSub
    ∧ spawnComplete goodInput = true
    ∧ goodInput.collaborators.isSome = true
    ∧ (versionsNew ⟨[sampleRoom], [], []⟩ "room-1" "home" goodInput ⟨"caller9", false⟩ true).2.2 =
        some "1"
    ∧ (decoupledMeta goodInput ⟨"caller9", false⟩).author = "caller9" := by
  have h := claim4_version_create ⟨[sampleRoom], [], []⟩ "room-1" "home" goodInput
    ⟨"caller9", false⟩ sampleRoom sampleHomeSub (by decide) (by decide) (by decide) (by decide)
  refine ⟨by decide, by decide, by decide, by decide, ?_, h.2⟩
  rw [h.1]
  decide

/-- C9 counterexample: in the version-create handler the audit write is
`await`ed inside the try block, so when the audit insert fails after the
primary `$push` has already been applied (the room's `home` subroom now has
2 versions), the client receives 500 `internal_error` instead of the success
response — contradicting "audit writes never block or fail the primary
operation's success response". -/
theorem claim9_counterexample :
    (versionsNew ⟨[sampleRoom], [], []⟩ "room-1" "home" goodInput
      ⟨"creator1", false⟩ false).1.status = 500
    ∧ ((versionsNew ⟨[sampleRoom], [], []⟩ "room-1" "home" goodInput
        ⟨"creator1", false⟩ false).2.1.db.map
          (fun r => (jsGet r.subrooms "home").map (fun s => s.versions.length))) = [some 2]
    ∧ (versionsNew ⟨[sampleRoom], [], []⟩ "room-1" "home" goodInput
        ⟨"creator1", false⟩ false).1.code ≠ "success" := by
  decide

/-- C9 amended: audit behaviour depends on the call site.  In version-create
the awaited audit failure yields 500 `internal_error` although the `$push`
already persisted; in moderation-terminate `roomAuditLog` is invoked without
`await`, so the response is identical whether or not the audit insert
succeeds. -/
theorem claim9_audit_best_effort (st : St) (rid sid : String) (input : InputMeta)
    (user : User) (room : Room) (sub : Subroom)
    (hroom : findRoom st.db rid = some room)
    (hsub : jsGet room.subrooms sid = some sub)
    (hspawn : spawnComplete input = true)
    (hcoll : input.collaborators.isSome = true) :
    versionsNew st rid sid input user false =
      (⟨500, "internal_error",
        "An internal server error occured, and the operation failed. Please contact Support if the issue persists."⟩,
       ⟨updateRoomDoc st.db rid (fun r =>
          { r with subrooms := jsModify r.subrooms sid (fun s =>
              { s with versions := s.versions ++ [decoupledMeta input user] }) }),
        st.audit, st.blobs⟩, none)
    ∧ (∀ st2 rid2 note pq u,
        (moderationTerminate st2 rid2 note pq u false).1 =
        (moderationTerminate st2 rid2 note pq u true).1) := by
  have hcoll' : input.collaborators.isNone = false := by
    cases hc : input.collaborators with
    | none => rw [hc] at hcoll; simp at hcoll
    | some l => rfl
  constructor
  · simp [versionsNew, hspawn, hcoll', hroom, hsub]
  · intro st2 rid2 note pq u
    unfold moderationTerminate
    cases h : findRoom st2.db rid2 with
    | none => rfl
    | some r =>
      by_cases hq : (pq == some "true") = true
      · simp [hq]
      · simp [hq]

/-- Witness for C9 at a concrete store. -/
theorem claim9_witness :
    findRoom [sampleRoom] "room-1" = some sampleRoom
    ∧ spawnComplete goodInput = true
    ∧ (versionsNew ⟨[sampleRoom], [], []⟩ "room-1" "home" goodInput ⟨"caller9", false⟩ false).1 =
        ⟨500, "internal_error",
          "An internal server error occured, and the operation failed. Please contact Support if the issue persists."⟩
    ∧ (moderationTerminate ⟨[sampleRoom], [], []⟩ "room-1" none (some "true")
        ⟨"dev1", true⟩ false).1 =
      (moderationTerminate ⟨[sampleRoom], [], []⟩ "room-1" none (some "true")
        ⟨"dev1", true⟩ true).1 := by
  have h := claim9_audit_best_effort ⟨[sampleRoom], [], []⟩ "room-1" "home" goodInput
    ⟨"caller9", false⟩ sampleRoom sampleHomeSub (by decide) (by decide) (by decide) (by decide)
  refine ⟨by decide, by decide, ?_, h.2 ⟨[sampleRoom], [], []⟩ "room-1" none (some "true") ⟨"dev1", true⟩⟩
  rw [h.1]

/-- C10: when the body `id` of a set-public-version request does not parse
(`parseInt` yields `NaN`) or parses negative, the
`versions.length <= parseInt(id)` guard cannot fire, the operation answers
200, and `publicVersionId` is `$set` to the raw request string — a value
that is never a numeric index into `versions`. -/
theorem claim10_public_version_raw_string (st : St) (rid sid idStr : String)
    (user : User) (room : Room) (sub : Subroom)
    (hroom : findRoom st.db rid = some room)
    (hsub : jsGet room.subrooms sid = some sub)
    (hbad : jsParseInt idStr = none ∨ ∃ n, jsParseInt idStr = some n ∧ n < 0) :
    setPublicVersion st rid sid (some idStr) user =
      (⟨200, "success", "Operation successful"⟩,
       ⟨updateRoomDoc st.db rid (fun r =>
          { r with subrooms := jsModify r.subrooms sid (fun s =>
              { s with publicVersionId := JsVal.str idStr }) }),
        st.audit ++ [⟨rid, user.id, "public_version_updated", none⟩], st.blobs⟩)
    ∧ (∀ k, JsVal.str idStr ≠ JsVal.num k) := by
  have hguard : jsLenLeParsed sub.versions.length (jsParseInt idStr) = false := by
    rcases hbad with h | ⟨n, hn, hneg⟩
    · rw [h]; rfl
    · rw [hn]
      unfold jsLenLeParsed
      simp only [decide_eq_false_iff_not]
      omega
  refine ⟨?_, ?_⟩
  · simp [setPublicVersion, hroom, hsub, hguard]
  · intro k hk
    exact JsVal.noConfusion hk

/-- Witness for C10: the body id `"abc"` parses to `NaN`, the operation
succeeds and the home subroom's `publicVersionId` becomes the raw string
`"abc"`. -/
theorem claim10_witness :
    findRoom [sampleRoom] "room-1" = some sampleRoom
    ∧ jsParseInt "abc" = none
    ∧ (setPublicVersion ⟨[sampleRoom], [], []⟩ "room-1" "home" (some "abc")
        ⟨"dev1", true⟩).1.status = 200
    ∧ ((setPublicVersion ⟨[sampleRoom], [], []⟩ "room-1" "home" (some "abc")
        ⟨"dev1", true⟩).2.db.map
          (fun r => (jsGet r.subrooms "home").map Subroom.publicVersionId)) =
        [some (JsVal.str "abc")] := by
  have h := claim10_public_version_raw_string ⟨[sampleRoom], [], []⟩ "room-1" "home" "abc"
    ⟨"dev1", true⟩ sampleRoom sampleHomeSub (by decide) (by decide) (Or.inl (by decide))
  refine ⟨by decide, by decide, ?_, ?_⟩
  · rw [h.1]
  · rw [h.1]
    decide

/-- C5: if a version's `associated_file` flag is already true, the
associate-data call fails with `file_already_associated` and changes
nothing; and starting from a version without a file, the first call
succeeds and stores the payload, after which an immediate second call on
the same version fails with `file_already_associated` and leaves the whole
state — the stored payload included — unchanged. -/
theorem claim5_associate_data_twice (st : St) (rid sid vidStr body body2 : String)
    (user user2 : User) (room : Room) (sub : Subroom) (n : Int) (v : Version)
    (hroom : findRoom st.db rid = some room)
    (hsub : jsGet room.subrooms sid = some sub)
    (hparse : jsParseInt vidStr = some n)
    (hn : 0 ≤ n)
    (hv : sub.versions.get? n.toNat = some v) :
    (v.associated_file = true →
      associateData st rid sid vidStr body user =
        (⟨400, "file_already_associated",
          "There is already a file associated with this version. Try making a new one."⟩, st))
    ∧ (v.associated_file = false →
      associateData st rid sid vidStr body user =
        (⟨200, "success", "Operation successful."⟩, associateAfter st rid sid n body)
      ∧ blobGet (associateAfter st rid sid n body).blobs (rid, sid, n) = some body
      ∧ associateData (associateAfter st rid sid n body) rid sid vidStr body2 user2 =
          (⟨400, "file_already_associated",
            "There is already a file associated with this version. Try making a new one."⟩,
           associateAfter st rid sid n body)) := by
  have hlt : n.toNat < sub.versions.length := by
    rcases List.get?_eq_some.mp hv with ⟨h, _⟩
    exact h
  have hcast : (n.toNat : Int) = n := Int.toNat_of_nonneg hn
  have hbound : ¬ ((sub.versions.length : Int) - 1 < n) := by omega
  have hv' : sub.versions[n.toNat]? = some v := by
    rw [← List.get?_eq_getElem?]
    exact hv
  constructor
  · intro htrue
    simp [associateData, hparse, hroom, hsub, hbound, hn, hv', htrue]
  · intro hfalse
    have h1 : associateData st rid sid vidStr body user =
        (⟨200, "success", "Operation successful."⟩, associateAfter st rid sid n body) := by
      simp [associateData, associateAfter, hparse, hroom, hsub, hbound, hn, hv', hfalse]
    refine ⟨h1, blobGet_blobWrite_self st.blobs (rid, sid, n) body, ?_⟩
    have hroom2 : findRoom (associateAfter st rid sid n body).db rid =
        some { room with subrooms := jsModify room.subrooms sid (fun s =>
          { s with versions := setAssociatedFlag s.versions n.toNat }) } := by
      unfold associateAfter
      have hupd := findRoom_updateRoomDoc_self st.db rid
        (fun r => { r with subrooms := jsModify r.subrooms sid (fun s =>
            { s with versions := setAssociatedFlag s.versions n.toNat }) })
        (fun r => rfl)
      rw [hroom] at hupd
      exact hupd
    have hsub2 : jsGet (jsModify room.subrooms sid (fun s =>
        { s with versions := setAssociatedFlag s.versions n.toNat })) sid =
        some { sub with versions := setAssociatedFlag sub.versions n.toNat } := by
      rw [jsGet_jsModify_self, hsub]
      rfl
    have hbound2 : ¬ (((setAssociatedFlag sub.versions n.toNat).length : Int) - 1 < n) := by
      rw [setAssociatedFlag_length]
      exact hbound
    have hv2 : (setAssociatedFlag sub.versions n.toNat)[n.toNat]? =
        some { v with associated_file := true } := by
      rw [← List.get?_eq_getElem?]
      exact setAssociatedFlag_get? _ _ _ hv
    simp [associateData, hparse, hroom2, hsub2, hbound2, hn, hv2]

/-- Witness for C5: one concrete run with a fresh room (version 0 has no
file yet): the first call stores the 3-byte payload and the second call
fails with `file_already_associated`. -/
theorem claim5_witness :
    findRoom [sampleRoom] "room-1" = some sampleRoom
    ∧ jsParseInt "0" = some 0
    ∧ sampleHomeSub.versions.get? 0 = some
        { baseSceneIndex := 15
          spawn := ⟨0, 0, 0, 0, 0, 0, 0⟩
          shortHandCommitMessage := "Initial Commit"
          longHandCommitMessage := "Initial Commit - Auto-Generated for your convenience."
          author := "creator1"
          collaborators := []
          associated_file := false }
    ∧ ((associateData ⟨[sampleRoom], [], []⟩ "room-1" "home" "0" "abc" ⟨"caller9", false⟩).1.status = 200
      ∧ blobGet (associateAfter ⟨[sampleRoom], [], []⟩ "room-1" "home" 0 "abc").blobs
          ("room-1", "home", 0) = some "abc"
      ∧ (associateData (associateAfter ⟨[sampleRoom], [], []⟩ "room-1" "home" 0 "abc")
          "room-1" "home" "0" "xyz" ⟨"caller9", false⟩).1.code = "file_already_associated") := by
  have h := claim5_associate_data_twice ⟨[sampleRoom], [], []⟩ "room-1" "home" "0" "abc" "xyz"
    ⟨"caller9", false⟩ ⟨"caller9", false⟩ sampleRoom sampleHomeSub 0
    { baseSceneIndex := 15
      spawn := ⟨0, 0, 0, 0, 0, 0, 0⟩
      shortHandCommitMessage := "Initial Commit"
      longHandCommitMessage := "Initial Commit - Auto-Generated for your convenience."
      author := "creator1"
      collaborators := []
      associated_file := false }
    (by decide) (by decide) (by decide) (by decide) (by decide)
  have h2 := h.2 rfl
  refine ⟨by decide, by decide, by decide, ?_, h2.2.1, ?_⟩
  · rw [h2.1]
  · rw [h2.2.2]

/-- C6 counterexample: the claim states the reserved role keys are never
deleted by any operation, the non-permanent moderation terminate included;
but that handler `$set`s `rolePermissions` to `{everyone: {}}` wholesale,
which removes the `owner` key (present beforehand) from the stored map. -/
theorem claim6_counterexample :
    hasKey sampleRoom.rolePermissions "owner" = true
    ∧ (moderationTerminate ⟨[sampleRoom], [], []⟩ "room-1" none none
        ⟨"dev1", true⟩ true).1.status = 200
    ∧ ((moderationTerminate ⟨[sampleRoom], [], []⟩ "room-1" none none
        ⟨"dev1", true⟩ true).2.db.map
          (fun r => (hasKey r.rolePermissions "owner", hasKey r.rolePermissions "everyone"))) =
        [(false, true)] := by
  decide

/-- C6 amended: within role administration the reserved names are protected:
role creation and deletion with name `owner` or `everyone` fail with the
reserved-name `invalid_input` error and leave the state unchanged (given the
permission gate passed), and any role deletion or creation with another name
preserves the presence of the `owner` and `everyone` keys in
`rolePermissions`.  The non-permanent moderation terminate, by contrast,
replaces `rolePermissions` with a map containing only `everyone`
(see the counterexample). -/
theorem claim6_reserved_roles :
    (∀ (st : St) (rid name : String) (user : User) (ctx : ReqCtx),
      requiresRoomPermission "managePermissions" (findRoom st.db rid) user = MwResult.next ctx →
      (name = "owner" ∨ name = "everyone") →
      roleCreate st rid (some name) user =
        (⟨400, "invalid_input",
          "Cannot create a role with a reserved name like \x27owner\x27 or \x27everyone\x27."⟩, st)
      ∧ roleDelete st rid name user =
        (⟨400, "invalid_input",
          "You cannot delete a reserved role. (i.e \x27owner\x27 or \x27everyone\x27)"⟩, st))
    ∧ (∀ (st : St) (rid name : String) (user : User) (room room' : Room),
        name ≠ "owner" → name ≠ "everyone" →
        findRoom st.db rid = some room →
        findRoom (roleDelete st rid name user).2.db rid = some room' →
        (hasKey room.rolePermissions "owner" = true →
          hasKey room'.rolePermissions "owner" = true)
        ∧ (hasKey room.rolePermissions "everyone" = true →
          hasKey room'.rolePermissions "everyone" = true))
    ∧ (∀ (st : St) (rid : String) (nameOpt : Option String) (user : User) (room room' : Room),
        findRoom st.db rid = some room →
        findRoom (roleCreate st rid nameOpt user).2.db rid = some room' →
        (hasKey room.rolePermissions "owner" = true →
          hasKey room'.rolePermissions "owner" = true)
        ∧ (hasKey room.rolePermissions "everyone" = true →
          hasKey room'.rolePermissions "everyone" = true)) := by
  refine ⟨?_, ?_, ?_⟩
  · intro st rid name user ctx hmw hres
    have hb : (name == "owner" || name == "everyone") = true := by
      rcases hres with h | h <;> simp [h]
    constructor
    · simp [roleCreate, hmw, hb]
    · simp [roleDelete, hmw, hb]
  · intro st rid name user room room' h1 h2 hroom hroom'
    have hb : (name == "owner" || name == "everyone") = false := by
      simp [h1, h2]
    unfold roleDelete at hroom'
    cases hmw : requiresRoomPermission "managePermissions" (findRoom st.db rid) user with
    | notFound m =>
      rw [hmw] at hroom'
      simp only at hroom'
      rw [hroom] at hroom'
      cases hroom'
      exact ⟨id, id⟩
    | thrown =>
      rw [hmw] at hroom'
      simp only at hroom'
      rw [hroom] at hroom'
      cases hroom'
      exact ⟨id, id⟩
    | next ctx =>
      rw [hmw] at hroom'
      simp only [hb, Bool.false_eq_true, if_false, hroom] at hroom'
      have hupd := findRoom_updateRoomDoc_self st.db rid
        (fun r => { r with
          rolePermissions := jsDelete r.rolePermissions name,
          userPermissions := List.foldl (fun up k => jsSet up k "everyone")
            r.userPermissions
            (List.filter (fun k => k == name) (List.map Prod.fst room.userPermissions)) })
        (fun r => rfl)
      rw [hroom] at hupd
      have hupd2 : findRoom (updateRoomDoc st.db rid
          (fun r => { r with
            rolePermissions := jsDelete r.rolePermissions name,
            userPermissions := List.foldl (fun up k => jsSet up k "everyone")
              r.userPermissions
              (List.filter (fun k => k == name)
                (List.map Prod.fst room.userPermissions)) })) rid =
          some { room with
            rolePermissions := jsDelete room.rolePermissions name,
            userPermissions := List.foldl (fun up k => jsSet up k "everyone")
              room.userPermissions
              (List.filter (fun k => k == name)
                (List.map Prod.fst room.userPermissions)) } := hupd
      rw [hupd2] at hroom'
      cases hroom'
      constructor
      · intro h
        simpa [hasKey, jsGet_jsDelete_ne room.rolePermissions
          (fun hc => h1 hc.symm)] using h
      · intro h
        simpa [hasKey, jsGet_jsDelete_ne room.rolePermissions
          (fun hc => h2 hc.symm)] using h
  · intro st rid nameOpt user room room' hroom hroom'
    unfold roleCreate at hroom'
    cases hmw : requiresRoomPermission "managePermissions" (findRoom st.db rid) user with
    | notFound m =>
      rw [hmw] at hroom'
      simp only at hroom'
      rw [hroom] at hroom'
      cases hroom'
      exact ⟨id, id⟩
    | thrown =>
      rw [hmw] at hroom'
      simp only at hroom'
      rw [hroom] at hroom'
      cases hroom'
      exact ⟨id, id⟩
    | next ctx =>
      rw [hmw] at hroom'
      cases nameOpt with
      | none =>
        simp only at hroom'
        rw [hroom] at hroom'
        cases hroom'
        exact ⟨id, id⟩
      | some name =>
        by_cases hb : (name == "owner" || name == "everyone") = true
        · simp only [hb, if_true] at hroom'
          rw [hroom] at hroom'
          cases hroom'
          exact ⟨id, id⟩
        · simp only [hb, Bool.false_eq_true, if_false, hroom] at hroom'
          by_cases hk : hasKey room.rolePermissions name = true
          · simp only [hk, if_true] at hroom'
            rw [hroom] at hroom'
            cases hroom'
            exact ⟨id, id⟩
          · simp only [hk, Bool.false_eq_true, if_false] at hroom'
            have hupd := findRoom_updateRoomDoc_self st.db rid
              (fun r => { r with rolePermissions := jsSet r.rolePermissions name [] })
              (fun r => rfl)
            rw [hroom] at hupd
            have hupd2 : findRoom (updateRoomDoc st.db rid
                (fun r => { r with rolePermissions := jsSet r.rolePermissions name [] }))
                rid =
                some { room with rolePermissions := jsSet room.rolePermissions name [] } :=
              hupd
            rw [hupd2] at hroom'
            cases hroom'
            exact ⟨fun h => hasKey_jsSet_of_hasKey _ _ _ _ h,
                   fun h => hasKey_jsSet_of_hasKey _ _ _ _ h⟩

/-- Witness for C6 at concrete inputs: a developer attempting to create and
delete the reserved roles on a fresh room, and a deletion of the
non-reserved `builder` role preserving both reserved keys. -/
theorem claim6_witness :
    requiresRoomPermission "managePermissions" (findRoom [sampleRoom] "room-1") ⟨"dev1", true⟩ =
      MwResult.next ⟨sampleRoom, JsRoleVal.objVal [("creator1", "owner")],
        some [("viewAndJoin", false), ("createVersions", false), ("setPublicVersion", false),
              ("viewSettings", false), ("viewPermissions", false), ("managePermissions", false),
              ("useCreationTool", false)]⟩
    ∧ (roleCreate ⟨[sampleRoom], [], []⟩ "room-1" (some "owner") ⟨"dev1", true⟩ =
        (⟨400, "invalid_input",
          "Cannot create a role with a reserved name like \x27owner\x27 or \x27everyone\x27."⟩,
         ⟨[sampleRoom], [], []⟩)
      ∧ roleDelete ⟨[sampleRoom], [], []⟩ "room-1" "owner" ⟨"dev1", true⟩ =
        (⟨400, "invalid_input",
          "You cannot delete a reserved role. (i.e \x27owner\x27 or \x27everyone\x27)"⟩,
         ⟨[sampleRoom], [], []⟩))
    ∧ (hasKey builderRoom.rolePermissions "owner" = true →
        hasKey ((findRoom (roleDelete ⟨[builderRoom], [], []⟩ "room-1" "builder"
          ⟨"dev1", true⟩).2.db "room-1").getD sampleRoom).rolePermissions "owner" = true) := by
  have h := claim6_reserved_roles
  refine ⟨by decide, ?_, ?_⟩
  · exact h.1 ⟨[sampleRoom], [], []⟩ "room-1" "owner" ⟨"dev1", true⟩
      ⟨sampleRoom, JsRoleVal.objVal [("creator1", "owner")],
        some [("viewAndJoin", false), ("createVersions", false), ("setPublicVersion", false),
              ("viewSettings", false), ("viewPermissions", false), ("managePermissions", false),
              ("useCreationTool", false)]⟩ (by decide) (Or.inl rfl)
  · intro hk
    have := (h.2.1 ⟨[builderRoom], [], []⟩ "room-1" "builder" ⟨"dev1", true⟩ builderRoom
      ((findRoom (roleDelete ⟨[builderRoom], [], []⟩ "room-1" "builder"
        ⟨"dev1", true⟩).2.db "room-1").getD sampleRoom)
      (by decide) (by decide) (by decide) (by decide)).1 hk
    exact this

/-- C7: a permanent moderation-terminate on an existing room answers 200
success, removes the room document, records the
`room_terminated_for_illegal_content` audit event, and any subsequent
`GET /room/:id/info` fetch of the same id answers the 404 not-found
response, whoever asks. -/
theorem claim7_permanent_terminate (st : St) (rid : String) (note : Option String)
    (user : User) (room : Room)
    (hroom : findRoom st.db rid = some room)
    (huniq : (st.db.map Room._id).Nodup) :
    moderationTerminate st rid note (some "true") user true =
      (⟨200, "success", "Room wiped entirely from database."⟩,
       ⟨deleteRoomDoc st.db rid,
        st.audit ++ [⟨rid, user.id, "room_terminated_for_illegal_content", note⟩],
        st.blobs⟩)
    ∧ findRoom (deleteRoomDoc st.db rid) rid = none
    ∧ (∀ u, roomInfo (findRoom (deleteRoomDoc st.db rid) rid) u = InfoResp.notFound) := by
  have hdel := findRoom_deleteRoomDoc st.db rid huniq
  refine ⟨?_, hdel, ?_⟩
  · simp [moderationTerminate, hroom]
  · intro u
    rw [hdel]
    rfl

/-- Witness for C7 at a concrete store. -/
theorem claim7_witness :
    findRoom [sampleRoom] "room-1" = some sampleRoom
    ∧ (([sampleRoom] : List Room).map Room._id).Nodup
    ∧ (moderationTerminate ⟨[sampleRoom], [], []⟩ "room-1" (some "illegal content")
        (some "true") ⟨"dev1", true⟩ true).1 =
        ⟨200, "success", "Room wiped entirely from database."⟩
    ∧ findRoom (deleteRoomDoc [sampleRoom] "room-1") "room-1" = none
    ∧ (∀ u, roomInfo (findRoom (deleteRoomDoc [sampleRoom] "room-1") "room-1") u =
        InfoResp.notFound) := by
  have h := claim7_permanent_terminate ⟨[sampleRoom], [], []⟩ "room-1" (some "illegal content")
    ⟨"dev1", true⟩ sampleRoom (by decide) (by decide)
  refine ⟨by decide, by decide, ?_, h.2.1, h.2.2⟩
  rw [h.1]

/-- C8 counterexample: the claim states that on every view-style endpoint a
denied actor receives a response identical to the one for a nonexistent
room.  `GET /room/:id/info` is the view endpoint, yet it answers
403 `invalid_permissions` to a denied actor and 404 `room_not_found` for a
missing room — the two responses are distinguishable. -/
theorem claim8_counterexample :
    roomInfo (some sampleRoom) (some ⟨"bob", false⟩) = InfoResp.forbidden
    ∧ roomInfo none (some ⟨"bob", false⟩) = InfoResp.notFound
    ∧ InfoResp.forbidden ≠ InfoResp.notFound := by
  decide

/-- C8 amended: the indistinguishability policy holds exactly for the
`canViewRoom` middleware (used by `my-permissions` and
`verify-subroom-link`): its denial response equals its missing-room
response.  `GET /room/:id/info` instead surfaces an explicit
403 `invalid_permissions` on denial, distinguishable from its 404 for a
missing room; and the `requiresRoomPermission` management gate answers
404 `room_not_found` with message "Access denied." on denial versus
"Room not found." for a missing room. -/
theorem claim8_denial_responses (room : Room) (user : User) (perms : JsObj Bool)
    (hperms : jsGet room.rolePermissions
      ((jsGet room.userPermissions user.id).getD "everyone") = some perms)
    (hview : truthy (jsGet perms "viewAndJoin") = false)
    (hdev : user.developer = false) :
    (canViewRoom (some room) user = MwResult.notFound "You did not specify a room."
      ∧ canViewRoom none user = MwResult.notFound "You did not specify a room.")
    ∧ (user.id ≠ room.creator_id → roomInfo (some room) (some user) = InfoResp.forbidden)
    ∧ roomInfo none (some user) = InfoResp.notFound
    ∧ (∀ p, truthy (jsGet perms p) = false →
        ((jsGet room.userPermissions user.id).getD "everyone") ≠ "owner" →
        requiresRoomPermission p (some room) user = MwResult.notFound "Access denied."
        ∧ requiresRoomPermission p none user = MwResult.notFound "Room not found.") := by
  refine ⟨⟨?_, rfl⟩, ?_, rfl, ?_⟩
  · simp [canViewRoom, hperms, hview, hdev]
  · intro hne
    have hb : (user.id != room.creator_id) = true := bne_iff_ne.mpr hne
    simp [roomInfo, hperms, hview, hb]
  · intro p hp hrole
    have hb : (((jsGet room.userPermissions user.id).getD "everyone") != "owner") = true :=
      bne_iff_ne.mpr hrole
    constructor
    · simp [requiresRoomPermission, hdev, hperms, hp, hb]
    · rfl

/-- Witness for C8: user `bob` on a fresh room (everyone cannot view). -/
theorem claim8_witness :
    jsGet sampleRoom.rolePermissions
      ((jsGet sampleRoom.userPermissions "bob").getD "everyone") =
      some [("viewAndJoin", false), ("createVersions", false), ("setPublicVersion", false),
            ("viewSettings", false), ("viewPermissions", false), ("managePermissions", false),
            ("useCreationTool", false)]
    ∧ (canViewRoom (some sampleRoom) ⟨"bob", false⟩ =
        MwResult.notFound "You did not specify a room."
      ∧ canViewRoom none ⟨"bob", false⟩ = MwResult.notFound "You did not specify a room.")
    ∧ roomInfo (some sampleRoom) (some ⟨"bob", false⟩) = InfoResp.forbidden
    ∧ (requiresRoomPermission "managePermissions" (some sampleRoom) ⟨"bob", false⟩ =
        MwResult.notFound "Access denied."
      ∧ requiresRoomPermission "managePermissions" none ⟨"bob", false⟩ =
        MwResult.notFound "Room not found.") := by
  have h := claim8_denial_responses sampleRoom ⟨"bob", false⟩
    [("viewAndJoin", false), ("createVersions", false), ("setPublicVersion", false),
     ("viewSettings", false), ("viewPermissions", false), ("managePermissions", false),
     ("useCreationTool", false)] (by decide) (by decide) (by decide)
  exact ⟨by decide, h.1, h.2.1 (by decide), h.2.2.2 "managePermissions" (by decide) (by decide)⟩

end CompensationAPI
